import Mathlib

/-!
# Verification of the VyxalBot3 command dispatcher and webhook reporter

Shallow embedding of `src/vyxalbot3/commands/dispatcher.py` and
`src/vyxalbot3/github/webhook.py`.  Python dicts are modelled as association
lists, exceptions as an explicit `Failure` sum returned through `Except`,
and the external collaborators (database, trick store, permission store,
handlers) as function arguments.
-/

namespace Vyxalbot

/-- The token kinds produced by the external tokenizer
(`vyxalbot3.commands.parser.ArgumentType`). -/
inductive ArgumentType where
  | flag
  | word
  | string_
  | number
  deriving DecidableEq, Repr

/-- Python's `ArgumentType.<member>.name`, used in error messages. -/
def ArgumentType.name : ArgumentType → String
  | .flag => "FLAG"
  | .word => "WORD"
  | .string_ => "STRING"
  | .number => "NUMBER"

/-- A token: the Python `Argument` tuple `(ArgumentType, value)`.  Values of
all kinds are modelled as strings (the dispatcher only moves them around and
interpolates them into messages). -/
structure Argument where
  type : ArgumentType
  value : String
  deriving DecidableEq, Repr

/-- The expected kind of a handler parameter, derived from its annotation:
an `EnumType` annotation (carrying the list of member values, in declaration
order) or a plain annotated type mapped through `ARGUMENT_TYPE_SIGNATURES`. -/
inductive ParamKind where
  | enum (literals : List String)
  | plain (t : ArgumentType)
  deriving DecidableEq, Repr

/-- One entry of `inspect.signature(command).parameters`: its name, the kind
derived from its annotation, and whether `parameter.default` is not
`parameter.empty`. -/
structure Parameter where
  name : String
  kind : ParamKind
  hasDefault : Bool
  deriving DecidableEq, Repr

/-- The command tree (`CommandTree = dict[str, CommandTree] | CommandLeaf`).
A leaf records the handler function's `__name__` and its signature; the
handler's behaviour itself lives in an environment keyed by that name. -/
inductive CommandTree where
  | group (children : List (String × CommandTree))
  | leaf (fname : String) (params : List Parameter)

/-- Python `==` on trees: dicts compare by content, function objects by
identity (modelled as equality of their recorded names and signatures). -/
def CommandTree.beq : CommandTree → CommandTree → Bool
  | .leaf f1 p1, .leaf f2 p2 => f1 = f2 && p1 = p2
  | .group c1, .group c2 => beqChildren c1 c2
  | _, _ => false
where
  beqChildren : List (String × CommandTree) → List (String × CommandTree) → Bool
  | [], [] => true
  | (k1, t1) :: r1, (k2, t2) :: r2 => k1 = k2 && CommandTree.beq t1 t2 && beqChildren r1 r2
  | _, _ => false

/-- Membership test `argument[1] in command` and indexing `command[argument[1]]` on a dict node. -/
def treeFind (children : List (String × CommandTree)) (key : String) : Option CommandTree :=
  match children with
  | [] => none
  | (k, t) :: rest => if k = key then some t else treeFind rest key

/-- The keys of a dict node, in insertion order (`tree.keys()`). -/
def treeKeys (children : List (String × CommandTree)) : List String :=
  children.map Prod.fst

/-- Every way `CommandDispatcher.split_arguments` can return:
a resolved leaf with the remaining tokens, or a group together with the
unmatched flag name (`None` when the walk stopped on the group itself). -/
inductive SplitResult where
  | leafR (fname : String) (params : List Parameter) (rest : List Argument)
  | groupR (node : List (String × CommandTree)) (missing : Option String)

/-- Embedding of `CommandDispatcher.split_arguments`: walk the leading run of FLAG tokens
down the tree.  A non-FLAG token (or running out of tokens) stops the walk on
the current group; an unmatched name returns the current group and that name;
reaching a leaf returns it with the tokens after the consumed flag. -/
def split_arguments (command : List (String × CommandTree)) :
    List Argument → SplitResult
  | [] => .groupR command none
  | argument :: rest =>
    if argument.type ≠ ArgumentType.flag then
      .groupR command none
    else
      match treeFind command argument.value with
      | none => .groupR command (some argument.value)
      | some (.group sub) => split_arguments sub rest
      | some (.leaf fname params) => .leafR fname params rest

/-- Every way the Python code can leave `invoke`/`handle` abnormally:
a `CommandError` (caught by `handle`), a failed `assert`, the `IndexError`
from `full_arguments[0]` on an empty list, or any unclassified exception
raised by a handler. -/
inductive Failure where
  | commandError (message : String)
  | assertionError
  | indexError
  | unexpected (message : String)
  deriving DecidableEq, Repr

/-- Embedding of `CommandDispatcher.expected_type`: an enum annotation expects a FLAG
token, any other annotation expects the kind `ARGUMENT_TYPE_SIGNATURES`
assigns to it. -/
def expected_type (parameter : Parameter) : ArgumentType :=
  match parameter.kind with
  | .enum _ => ArgumentType.flag
  | .plain t => t

/-- A bound value: an enum member produced by `parameter.annotation(name)`,
a raw token value, or a context object injected by `invoke`. -/
inductive Value where
  | enumMember (lit : String)
  | token (v : String)
  | injected (tag : String)
  deriving DecidableEq, Repr

/-- Embedding of `CommandDispatcher.create_argument_value`.  The first match arm fires for
a FLAG token when a FLAG is expected (enum lookup by member value, unknown
values listing the members joined by `/`); the second when the token kind
equals the expected kind; the last reports the kind mismatch. -/
def create_argument_value (parameter : Parameter) (argument : Argument)
    (expected : ArgumentType) : Except Failure Value :=
  if argument.type = ArgumentType.flag ∧ expected = ArgumentType.flag then
    match parameter.kind with
    | .enum literals =>
      if argument.value ∈ literals then
        .ok (.enumMember argument.value)
      else
        .error (.commandError
          ("Invalid value supplied for argument `" ++ parameter.name ++
           "`; expected one of " ++ String.intercalate "/" literals ++ "."))
    | .plain _ => .error .assertionError
  else if argument.type = expected then
    .ok (.token argument.value)
  else
    .error (.commandError
      ("Incorrect type supplied for argument `" ++ parameter.name ++
       "`; expected **" ++ expected.name ++ "** but got **" ++
       argument.type.name ++ "**"))

/-- Modelled from the spec: `vyxalbot3.commands.IGNORED_PARAMETERS` is
imported from `vyxalbot3/commands/__init__.py`, which is not under `src/`.
The spec's §4.3/§3 make the reserved, context-injected parameter names the
triggering event and the resolved user, which `invoke` injects under the
keys `event` and `current_user`. -/
def IGNORED_PARAMETERS : List String := ["event", "current_user"]

/-- Modelled from the spec: `vyxalbot3.commands.ADMIN_GROUP` is imported
from code not under `src/`; the spec only calls it "a distinguished admin
group", so its concrete name is arbitrary here. -/
def ADMIN_GROUP : String := "admin"

/-- Modelled from the spec: `vyxalbot3.commands.COMMAND_FUNCTION_SUFFIX` is
imported from code not under `src/`; the spec says the canonical name is
"derived deterministically from its registered identifier", and `invoke`
derives it by stripping this suffix from the handler's `__name__`. -/
def COMMAND_FUNCTION_SUFFIX : String := "_command"

/-- The `argument_values` dict: an association list of bound values. -/
abbrev Bindings := List (String × Value)

/-- Dict assignment `m[key] = v`: replace an existing entry in place or
append a new one. -/
def dictInsert (m : Bindings) (key : String) (v : Value) : Bindings :=
  match m with
  | [] => [(key, v)]
  | (k, w) :: rest => if k = key then (k, v) :: rest else (k, w) :: dictInsert rest key v

/-- Dict lookup `m.get(key)`. -/
def dictLookup (m : Bindings) (key : String) : Option Value :=
  match m with
  | [] => none
  | (k, w) :: rest => if k = key then some w else dictLookup rest key

/-- Lookup `parameters.get(name)` on the signature's parameter mapping. -/
def paramLookup (parameters : List Parameter) (name : String) : Option Parameter :=
  match parameters with
  | [] => none
  | p :: rest => if p.name = name then some p else paramLookup rest name

/-- The first loop of `prepare_arguments` ("Set positional arguments"):
`zip_longest` pairs parameters and tokens index-wise; a missing token breaks
the loop, a missing parameter raises the superfluous-arguments error, an
ignored parameter is skipped (its paired token is dropped with it). -/
def set_positional_arguments :
    List Parameter → List Argument → Bindings → Except Failure Bindings
  | _, [], acc => .ok acc
  | [], argument :: _, _ =>
    .error (.commandError
      ("Superfluous arguments supplied starting at `" ++ argument.value ++ "`."))
  | parameter :: parameters, argument :: arguments, acc =>
    if parameter.name ∈ IGNORED_PARAMETERS then
      set_positional_arguments parameters arguments acc
    else
      match create_argument_value parameter argument (expected_type parameter) with
      | .error e => .error e
      | .ok v => set_positional_arguments parameters arguments (dictInsert acc parameter.name v)

/-- The second loop of `prepare_arguments` ("Set keyword arguments"):
for each explicit keyword token, in order: an ignored name is illegal, a name
already bound has multiple values, a name absent from the signature is
unknown; otherwise the value is created and bound. -/
def set_keyword_arguments (parameters : List Parameter) :
    List (String × Argument) → Bindings → Except Failure Bindings
  | [], acc => .ok acc
  | (argument_name, argument) :: rest, acc =>
    if argument_name ∈ IGNORED_PARAMETERS then
      .error (.commandError ("Illegal argument `" ++ argument_name ++ "` supplied."))
    else if (dictLookup acc argument_name).isSome then
      .error (.commandError
        ("Multiple values supplied for argument `" ++ argument_name ++ "`."))
    else
      match paramLookup parameters argument_name with
      | none =>
        .error (.commandError ("Unknown argument `" ++ argument_name ++ "` supplied."))
      | some parameter =>
        match create_argument_value parameter argument (expected_type parameter) with
        | .error e => .error e
        | .ok v => set_keyword_arguments parameters rest (dictInsert acc parameter.name v)

/-- The third loop of `prepare_arguments` ("Find missing arguments"):
a non-ignored parameter that is unbound and has no default raises the
argument-not-provided error. -/
def find_missing_arguments (acc : Bindings) : List Parameter → Except Failure Unit
  | [] => .ok ()
  | parameter :: parameters =>
    if parameter.name ∈ IGNORED_PARAMETERS then
      find_missing_arguments acc parameters
    else if (dictLookup acc parameter.name).isNone ∧ ¬ parameter.hasDefault then
      .error (.commandError
        ("Argument `" ++ parameter.name ++ "` not provided, expected a value of type **" ++
         (expected_type parameter).name ++ "**."))
    else
      find_missing_arguments acc parameters

/-- The fourth loop of `prepare_arguments` ("Set context values"):
every context key naming a signature parameter is set unconditionally. -/
def set_context_values (parameters : List Parameter) :
    List (String × Value) → Bindings → Bindings
  | [], acc => acc
  | (key, v) :: rest, acc =>
    set_context_values parameters rest
      (if (paramLookup parameters key).isSome then dictInsert acc key v else acc)

/-- Embedding of `CommandDispatcher.prepare_arguments`: the four loops in sequence. -/
def prepare_arguments (parameters : List Parameter) (arguments : List Argument)
    (explicit_arguments : List (String × Argument)) (context : List (String × Value)) :
    Except Failure Bindings :=
  match set_positional_arguments parameters arguments [] with
  | .error e => .error e
  | .ok acc =>
    match set_keyword_arguments parameters explicit_arguments acc with
    | .error e => .error e
    | .ok acc2 =>
      match find_missing_arguments acc2 parameters with
      | .error e => .error e
      | .ok _ => .ok (set_context_values parameters context acc2)

/-- Embedding of `CommandDispatcher.check_permissions`: `permission_rows` models the
`commandpermission.find_many` query, returning the `group_name` column of
the rows for the given command; `set(...)` is modelled by `dedup`. -/
def check_permissions (permission_rows : String → List String) (command : String)
    (current_groups : List String) : Except Failure Unit :=
  let allowed_groups := (permission_rows command).dedup
  if ADMIN_GROUP ∉ current_groups ∧ allowed_groups ≠ [] ∧
      current_groups.inter allowed_groups = [] then
    .error (.commandError
      ("Only members of groups " ++
       String.intercalate " | " (allowed_groups.map (fun name => "_" ++ name ++ "_")) ++
       " may run that command."))
  else
    .ok ()

/-- Python `str.removesuffix`. -/
def removeSuffix (s sfx : String) : String :=
  if s.endsWith sfx then s.dropRight sfx.length else s

/-- The permission-lookup key `command.__name__.removesuffix(COMMAND_FUNCTION_SUFFIX).replace("_", " ")`. -/
def canonical_command_name (fname : String) : String :=
  (removeSuffix fname COMMAND_FUNCTION_SUFFIX).replace "_" " "

/-- A handler's return value: plain text, or an explicit
`(text, reply target)` pair. -/
inductive Response where
  | text (message : String)
  | withTarget (message : String) (reply_to : Nat)
  deriving DecidableEq, Repr

/-- The external collaborators `invoke` consults: the trick store
(`db.trick.find_unique`), the permission store, and the registered handler
bodies, keyed by handler `__name__`.  A handler may return normally or raise
(a `CommandError` or any unclassified exception). -/
structure DispatchEnv where
  tricks : String → Option String
  permission_rows : String → List String
  handlers : String → Bindings → Except Failure (Option Response)

/-- Embedding of `CommandDispatcher.invoke`.  Reading `full_arguments[0]` raises `IndexError` on
an empty list; a non-FLAG first token returns `None`; otherwise the split
result is matched: a nonexistent leaf consults the trick store and then
reports no-such-command (at the root, decided by dict equality with the
whole tree) or no-such-subcommand; a group reports its subcommands; a leaf
is permission-checked, bound and called. -/
def invoke (tree : List (String × CommandTree)) (env : DispatchEnv)
    (current_groups : List String) (full_arguments : List Argument)
    (explicit_arguments : List (String × Argument)) : Except Failure (Option Response) :=
  match full_arguments with
  | [] => .error .indexError
  | first :: _ =>
    if first.type ≠ ArgumentType.flag then
      .ok none
    else
      match split_arguments tree full_arguments with
      | .groupR node (some nonexistent_leaf) =>
        match env.tricks nonexistent_leaf with
        | some body => .ok (some (.text body))
        | none =>
          if CommandTree.beq (.group node) (.group tree) then
            .error (.commandError
              ("There is no command named !!/" ++ nonexistent_leaf ++ "."))
          else
            .error (.commandError
              ("The group !!/" ++
               String.intercalate " " (full_arguments.dropLast.map Argument.value) ++
               " has no subcommand named \"" ++ nonexistent_leaf ++
               "\". Its subcommands are: " ++ String.intercalate ", " (treeKeys node)))
      | .groupR node none =>
        .error (.commandError
          ("Subcommands of !!/" ++
           String.intercalate " " (full_arguments.map Argument.value) ++
           " are: " ++ String.intercalate ", " (treeKeys node)))
      | .leafR fname params rest =>
        match check_permissions env.permission_rows (canonical_command_name fname)
            current_groups with
        | .error e => .error e
        | .ok _ =>
          match prepare_arguments params rest explicit_arguments
              [("event", .injected "event"), ("current_user", .injected "current_user")] with
          | .error e => .error e
          | .ok argument_values => env.handlers fname argument_values

/-- A chat message sent by `room.send(text, reply_to)`. -/
structure Sent where
  text : String
  reply_to : Nat
  deriving DecidableEq, Repr

/-- Embedding of `CommandDispatcher.handle`, from the `parse_arguments` call on (the user
upsert before it is external I/O): `parsed` is the outcome of the external
tokenizer (`ParseError` message or the token lists).  A `ParseError` and a
`CommandError` each become one reply; a `str` response replies to the
triggering message, a pair replies to its own target, `None` sends nothing.
Any other exception escapes the `try` blocks, so `handle` re-raises it. -/
def handle (tree : List (String × CommandTree)) (env : DispatchEnv)
    (current_groups : List String) (event_message_id : Nat)
    (parsed : Except String (List Argument × List (String × Argument))) :
    Except Failure (List Sent) :=
  match parsed with
  | .error message => .ok [⟨"Parse error: " ++ message, event_message_id⟩]
  | .ok (arguments, explicit_arguments) =>
    match invoke tree env current_groups arguments explicit_arguments with
    | .error (.commandError message) => .ok [⟨message, event_message_id⟩]
    | .error e => .error e
    | .ok none => .ok []
    | .ok (some (.text message)) => .ok [⟨message, event_message_id⟩]
    | .ok (some (.withTarget message reply_to)) => .ok [⟨message, reply_to⟩]

/-! ## The GitHub webhook reporter (`src/vyxalbot3/github/webhook.py`) -/

/-- The fragment of a webhook payload's `repository` object that
`handle_request` reads: `repository["name"]` and `repository["visibility"]`. -/
structure Repository where
  name : String
  visibility : String
  deriving DecidableEq, Repr

/-- The outcome of `Event.from_http`: a `BadRequest`/`ValidationFailure`
(modelled as `invalid`), or a parsed event whose payload may or may not
carry a truthy `repository` entry. -/
inductive ParsedRequest where
  | invalid
  | valid (repository : Option Repository)
  deriving DecidableEq, Repr

/-- An HTTP response status paired with the chat messages sent while the
request was handled; messages are produced only inside handlers reached
through `router.dispatch`. -/
structure WebResponse where
  status : Nat
  messages : List String
  deriving DecidableEq, Repr

/-- Embedding of `GitHubWebhookReporter.handle_request`: a malformed or badly signed
request is answered 400; a payload naming a private or ignored repository is
answered 200 before `router.dispatch` runs; otherwise `router.dispatch`
runs (externally, modelled by the messages it sends and whether it raises)
and the response is 500 on an exception, 200 otherwise. -/
def handle_request (ignored_repositories : List String)
    (dispatchMessages : List String) (dispatchRaises : Bool) :
    ParsedRequest → WebResponse
  | .invalid => ⟨400, []⟩
  | .valid repository? =>
    match repository? with
    | some repository =>
      if repository.visibility = "private" ∨ repository.name ∈ ignored_repositories then
        ⟨200, []⟩
      else if dispatchRaises then ⟨500, dispatchMessages⟩ else ⟨200, dispatchMessages⟩
    | none => if dispatchRaises then ⟨500, dispatchMessages⟩ else ⟨200, dispatchMessages⟩

/-! ## A spec-side rendering of positional pairing

The spec's §4.3 step 1 reads "walk declared parameters (skipping `ignored`
ones) in order, pairing each with the next unconsumed positional token".
The following definition follows those words — an ignored parameter is
passed over without consuming a token — so it can be compared with
`set_positional_arguments`, which embeds what the source actually does
(`zip_longest` pairs index-wise, so an ignored parameter swallows the token
at its own index). -/

/-- Modelled from the spec: positional pairing in which ignored parameters
never consume a token, per §4.3 step 1 as written.  Only for comparison
with the source-faithful `set_positional_arguments`. -/
def set_positional_arguments_spec :
    List Parameter → List Argument → Bindings → Except Failure Bindings
  | _, [], acc => .ok acc
  | [], argument :: _, _ =>
    .error (.commandError
      ("Superfluous arguments supplied starting at `" ++ argument.value ++ "`."))
  | parameter :: parameters, argument :: arguments, acc =>
    if parameter.name ∈ IGNORED_PARAMETERS then
      set_positional_arguments_spec parameters (argument :: arguments) acc
    else
      match create_argument_value parameter argument (expected_type parameter) with
      | .error e => .error e
      | .ok v =>
        set_positional_arguments_spec parameters arguments (dictInsert acc parameter.name v)

/-! ## Supporting lemmas -/

theorem dictLookup_dictInsert (m : Bindings) (key : String) (v : Value) (n : String) :
    dictLookup (dictInsert m key v) n = if key = n then some v else dictLookup m n := by
  induction m with
  | nil => simp [dictInsert, dictLookup]
  | cons head rest ih =>
    obtain ⟨k, w⟩ := head
    by_cases hk : k = key
    · subst hk
      by_cases hn : k = n <;> simp [dictInsert, dictLookup, hn]
    · by_cases hn : k = n
      · subst hn
        have hkey : ¬ (key = k) := fun h => hk h.symm
        simp [dictInsert, dictLookup, hk, hkey]
      · simp [dictInsert, dictLookup, hk, hn, ih]

theorem paramLookup_name (parameters : List Parameter) (n : String) (p : Parameter)
    (h : paramLookup parameters n = some p) : p.name = n := by
  induction parameters with
  | nil => simp [paramLookup] at h
  | cons q rest ih =>
    simp only [paramLookup] at h
    by_cases hq : q.name = n
    · simp [hq] at h
      rw [← h, hq]
    · simp [hq] at h
      exact ih h

theorem set_positional_arguments_ignored (parameters : List Parameter) :
    ∀ (args : List Argument) (acc out : Bindings),
      set_positional_arguments parameters args acc = .ok out →
      ∀ n ∈ IGNORED_PARAMETERS, dictLookup out n = dictLookup acc n := by
  induction parameters with
  | nil =>
    intro args acc out h n _
    cases args with
    | nil => simp only [set_positional_arguments] at h; injection h with h; rw [h]
    | cons a as => simp [set_positional_arguments] at h
  | cons p ps ih =>
    intro args acc out h n hn
    cases args with
    | nil => simp only [set_positional_arguments] at h; injection h with h; rw [h]
    | cons a as =>
      simp only [set_positional_arguments] at h
      by_cases hig : p.name ∈ IGNORED_PARAMETERS
      · rw [if_pos hig] at h
        exact ih as acc out h n hn
      · rw [if_neg hig] at h
        cases hc : create_argument_value p a (expected_type p) with
        | error e => rw [hc] at h; simp at h
        | ok v =>
          rw [hc] at h
          have hrec := ih as (dictInsert acc p.name v) out h n hn
          rw [hrec, dictLookup_dictInsert]
          have hne : ¬ (p.name = n) := by
            intro he; exact hig (he ▸ hn)
          simp [hne]

theorem set_keyword_arguments_ignored (parameters : List Parameter) :
    ∀ (explicit : List (String × Argument)) (acc out : Bindings),
      set_keyword_arguments parameters explicit acc = .ok out →
      ∀ n ∈ IGNORED_PARAMETERS, dictLookup out n = dictLookup acc n := by
  intro explicit
  induction explicit with
  | nil =>
    intro acc out h n _
    simp only [set_keyword_arguments] at h; injection h with h; rw [h]
  | cons head rest ih =>
    obtain ⟨argument_name, argument⟩ := head
    intro acc out h n hn
    simp only [set_keyword_arguments] at h
    by_cases hig : argument_name ∈ IGNORED_PARAMETERS
    · rw [if_pos hig] at h; simp at h
    · rw [if_neg hig] at h
      by_cases hdup : (dictLookup acc argument_name).isSome
      · rw [if_pos hdup] at h; simp at h
      · rw [if_neg hdup] at h
        split at h
        next hp => exact Except.noConfusion h
        next parameter hp =>
          split at h
          next e hc => exact Except.noConfusion h
          next v hc =>
            have hrec := ih (dictInsert acc parameter.name v) out h n hn
            rw [hrec, dictLookup_dictInsert]
            have hname := paramLookup_name parameters argument_name parameter hp
            have hne : ¬ (parameter.name = n) := by
              intro he
              exact hig (hname ▸ he ▸ hn)
            simp [hne]

theorem set_context_values_not_key (parameters : List Parameter) :
    ∀ (context : List (String × Value)) (acc : Bindings) (n : String),
      n ∉ context.map Prod.fst →
      dictLookup (set_context_values parameters context acc) n = dictLookup acc n := by
  intro context
  induction context with
  | nil => intro acc n _; rfl
  | cons head rest ih =>
    obtain ⟨key, v⟩ := head
    intro acc n hn
    simp only [List.map, List.mem_cons, not_or] at hn
    obtain ⟨hkey, hrest⟩ := hn
    simp only [set_context_values]
    rw [ih _ n hrest]
    by_cases hp : (paramLookup parameters key).isSome
    · rw [if_pos hp, dictLookup_dictInsert]
      have : ¬ (key = n) := fun h => hkey h.symm
      simp [this]
    · rw [if_neg hp]

theorem set_context_values_isSome (parameters : List Parameter) :
    ∀ (context : List (String × Value)) (acc : Bindings) (n : String),
      (dictLookup acc n).isSome →
      (dictLookup (set_context_values parameters context acc) n).isSome := by
  intro context
  induction context with
  | nil => intro acc n h; exact h
  | cons head rest ih =>
    obtain ⟨key, v⟩ := head
    intro acc n h
    simp only [set_context_values]
    apply ih
    by_cases hp : (paramLookup parameters key).isSome
    · rw [if_pos hp, dictLookup_dictInsert]
      by_cases hk : key = n <;> simp [hk, h]
    · rw [if_neg hp]; exact h

theorem find_missing_arguments_ok_iff (acc : Bindings) (parameters : List Parameter) :
    find_missing_arguments acc parameters = .ok () ↔
      ∀ p ∈ parameters, p.name ∉ IGNORED_PARAMETERS → ¬ p.hasDefault →
        (dictLookup acc p.name).isSome := by
  induction parameters with
  | nil => simp [find_missing_arguments]
  | cons p ps ih =>
    simp only [find_missing_arguments]
    by_cases hig : p.name ∈ IGNORED_PARAMETERS
    · rw [if_pos hig]
      simp only [List.mem_cons]
      constructor
      · intro h q hq hqig hqd
        rcases hq with rfl | hq
        · exact absurd hig hqig
        · exact (ih.mp h) q hq hqig hqd
      · intro h
        exact ih.mpr fun q hq hqig hqd => h q (Or.inr hq) hqig hqd
    · rw [if_neg hig]
      by_cases hcond : (dictLookup acc p.name).isNone = true ∧ ¬ p.hasDefault = true
      · rw [if_pos hcond]
        simp only [List.mem_cons]
        constructor
        · intro h; exact Except.noConfusion h
        · intro h
          exfalso
          have hsome := h p (Or.inl rfl) hig (by simpa using hcond.2)
          rw [Option.isNone_iff_eq_none] at hcond
          rw [hcond.1] at hsome
          simp at hsome
      · rw [if_neg hcond]
        simp only [List.mem_cons]
        constructor
        · intro h q hq hqig hqd
          rcases hq with rfl | hq
          · by_cases hs : (dictLookup acc q.name).isSome
            · exact hs
            · exfalso
              apply hcond
              constructor
              · rw [Option.isNone_iff_eq_none]
                exact Option.not_isSome_iff_eq_none.mp hs
              · simpa using hqd
          · exact (ih.mp h) q hq hqig hqd
        · intro h
          exact ih.mpr fun q hq hqig hqd => h q (Or.inr hq) hqig hqd

theorem find_missing_arguments_first (acc : Bindings) (p : Parameter) (post : List Parameter) :
    ∀ pre : List Parameter,
      (∀ q ∈ pre, q.name ∈ IGNORED_PARAMETERS ∨ q.hasDefault ∨ (dictLookup acc q.name).isSome) →
      p.name ∉ IGNORED_PARAMETERS → ¬ p.hasDefault → dictLookup acc p.name = none →
      find_missing_arguments acc (pre ++ p :: post) = .error (.commandError
        ("Argument `" ++ p.name ++ "` not provided, expected a value of type **" ++
         (expected_type p).name ++ "**.")) := by
  intro pre
  induction pre with
  | nil =>
    intro _ hig hd hnone
    have hcondp : (dictLookup acc p.name).isNone = true ∧ ¬ p.hasDefault = true :=
      ⟨by simp [hnone], by simpa using hd⟩
    simp only [List.nil_append, find_missing_arguments]
    rw [if_neg hig, if_pos hcondp]
  | cons q pre ih =>
    intro hq hig hd hnone
    have hqhead := hq q (List.mem_cons_self q pre)
    simp only [List.cons_append, find_missing_arguments]
    by_cases hqig : q.name ∈ IGNORED_PARAMETERS
    · rw [if_pos hqig]
      exact ih (fun r hr => hq r (List.mem_cons_of_mem q hr)) hig hd hnone
    · rw [if_neg hqig]
      have hcond : ¬ ((dictLookup acc q.name).isNone = true ∧ ¬ q.hasDefault = true) := by
        rcases hqhead with h | h | h
        · exact absurd h hqig
        · intro hc; exact hc.2 h
        · intro hc
          rw [Option.isNone_iff_eq_none] at hc
          rw [hc.1] at h
          simp at h
      rw [if_neg hcond]
      exact ih (fun r hr => hq r (List.mem_cons_of_mem q hr)) hig hd hnone

theorem set_positional_arguments_superfluous (parameters : List Parameter) :
    ∀ (paired : List Argument) (a : Argument) (rest : List Argument) (acc : Bindings),
      paired.length = parameters.length →
      (∀ pr ∈ parameters.zip paired, pr.1.name ∉ IGNORED_PARAMETERS →
        ∃ v, create_argument_value pr.1 pr.2 (expected_type pr.1) = .ok v) →
      set_positional_arguments parameters (paired ++ a :: rest) acc =
        .error (.commandError
          ("Superfluous arguments supplied starting at `" ++ a.value ++ "`.")) := by
  induction parameters with
  | nil =>
    intro paired a rest acc hlen _
    have hnil : paired = [] := by
      cases paired with
      | nil => rfl
      | cons _ _ => simp at hlen
    subst hnil
    rfl
  | cons p ps ih =>
    intro paired a rest acc hlen hok
    cases paired with
    | nil => simp at hlen
    | cons b pb =>
      simp only [List.cons_append, set_positional_arguments]
      by_cases hig : p.name ∈ IGNORED_PARAMETERS
      · rw [if_pos hig]
        exact ih pb a rest acc (by simpa using hlen)
          (fun pr hpr hprig =>
            hok pr (by rw [List.zip_cons_cons]; exact List.mem_cons_of_mem _ hpr) hprig)
      · rw [if_neg hig]
        obtain ⟨v, hv⟩ :=
          hok (p, b) (by rw [List.zip_cons_cons]; exact List.mem_cons_self _ _) hig
        rw [hv]
        exact ih pb a rest (dictInsert acc p.name v) (by simpa using hlen)
          (fun pr hpr hprig =>
            hok pr (by rw [List.zip_cons_cons]; exact List.mem_cons_of_mem _ hpr) hprig)

theorem set_positional_arguments_domain (args : List Argument) :
    ∀ (parameters : List Parameter) (acc : Bindings),
      args.length ≤ parameters.length →
      (∀ p ∈ parameters.take args.length, p.name ∉ IGNORED_PARAMETERS) →
      (∀ pr ∈ parameters.zip args, ∃ v, create_argument_value pr.1 pr.2 (expected_type pr.1) = .ok v) →
      ∃ out, set_positional_arguments parameters args acc = .ok out ∧
        ∀ n, (dictLookup out n).isSome ↔
          (n ∈ (parameters.take args.length).map Parameter.name ∨ (dictLookup acc n).isSome) := by
  induction args with
  | nil =>
    intro parameters acc _ _ _
    refine ⟨acc, ?_, ?_⟩
    · cases parameters <;> rfl
    · intro n; simp
  | cons a as ih =>
    intro parameters acc hlen htake hok
    cases parameters with
    | nil => simp at hlen
    | cons p ps =>
      have hpig : p.name ∉ IGNORED_PARAMETERS := htake p (by simp)
      obtain ⟨v, hv⟩ :=
        hok (p, a) (by rw [List.zip_cons_cons]; exact List.mem_cons_self _ _)
      simp only [set_positional_arguments]
      rw [if_neg hpig, hv]
      obtain ⟨out, hout, hiff⟩ := ih ps (dictInsert acc p.name v) (by simpa using hlen)
        (fun q hq => htake q (by
          simp only [List.length_cons, List.take_succ_cons, List.mem_cons]
          exact Or.inr hq))
        (fun pr hpr =>
          hok pr (by rw [List.zip_cons_cons]; exact List.mem_cons_of_mem _ hpr))
      refine ⟨out, hout, ?_⟩
      intro n
      rw [hiff n, dictLookup_dictInsert]
      by_cases hpn : p.name = n
      · simp [hpn]
      · have hnp : ¬ (n = p.name) := fun h => hpn h.symm
        simp [hpn, hnp]

theorem set_positional_arguments_swallow (igs : List Parameter) :
    ∀ (rest : List Parameter) (args : List Argument) (acc : Bindings),
      (∀ q ∈ igs, q.name ∈ IGNORED_PARAMETERS) →
      args.length ≤ igs.length →
      set_positional_arguments (igs ++ rest) args acc = .ok acc := by
  induction igs with
  | nil =>
    intro rest args acc _ hlen
    have hargs : args = [] := by
      cases args with
      | nil => rfl
      | cons a as => simp at hlen
    subst hargs
    cases rest <;> rfl
  | cons i igs' ih =>
    intro rest args acc hig hlen
    cases args with
    | nil => rfl
    | cons a as =>
      have hstep : set_positional_arguments ((i :: igs') ++ rest) (a :: as) acc =
          set_positional_arguments (igs' ++ rest) as acc := by
        simp [set_positional_arguments, hig i (List.mem_cons_self i igs')]
      rw [hstep]
      exact ih rest as acc (fun q hq => hig q (List.mem_cons_of_mem i hq))
        (by simpa using hlen)

theorem treeFind_sizeOf (children : List (String × CommandTree)) (key : String)
    (t : CommandTree) (h : treeFind children key = some t) : sizeOf t < sizeOf children := by
  induction children with
  | nil => exact Option.noConfusion h
  | cons head rest ih =>
    obtain ⟨k, u⟩ := head
    simp only [treeFind] at h
    by_cases hk : k = key
    · rw [if_pos hk] at h
      injection h with h
      subst h
      simp only [List.cons.sizeOf_spec, Prod.mk.sizeOf_spec]
      omega
    · rw [if_neg hk] at h
      have := ih h
      simp only [List.cons.sizeOf_spec]
      omega

theorem split_arguments_sizeOf :
    ∀ (args : List Argument) (command node : List (String × CommandTree)) (missing : Option String),
      split_arguments command args = .groupR node missing → sizeOf node ≤ sizeOf command := by
  intro args
  induction args with
  | nil =>
    intro c node m h
    simp only [split_arguments] at h
    cases h
    exact le_refl _
  | cons a as ih =>
    intro c node m h
    simp only [split_arguments] at h
    by_cases ht : a.type ≠ ArgumentType.flag
    · rw [if_pos ht] at h; cases h; exact le_refl _
    · rw [if_neg ht] at h
      split at h
      next hf => cases h; exact le_refl _
      next sub hf =>
        have h1 := ih sub node m h
        have h2 := treeFind_sizeOf c a.value _ hf
        simp only [CommandTree.group.sizeOf_spec] at h2
        omega
      next f p hf => exact SplitResult.noConfusion h

mutual

theorem CommandTree.beq_self : ∀ t : CommandTree, CommandTree.beq t t = true
  | .leaf f p => by simp [CommandTree.beq]
  | .group c => beqChildren_self c

theorem beqChildren_self : ∀ c : List (String × CommandTree),
    CommandTree.beq.beqChildren c c = true
  | [] => rfl
  | (k, t) :: r => by
    simp only [CommandTree.beq.beqChildren, Bool.and_eq_true, decide_eq_true_eq]
    exact ⟨⟨by trivial, CommandTree.beq_self t⟩, beqChildren_self r⟩

end

mutual

theorem CommandTree.beq_sound : ∀ a b : CommandTree, CommandTree.beq a b = true → a = b
  | .leaf f1 p1, .leaf f2 p2, h => by
    simp only [CommandTree.beq, Bool.and_eq_true, decide_eq_true_eq] at h
    rw [h.1, h.2]
  | .leaf _ _, .group _, h => by simp [CommandTree.beq] at h
  | .group _, .leaf _ _, h => by simp [CommandTree.beq] at h
  | .group c1, .group c2, h => by
    rw [beqChildren_sound c1 c2 h]

theorem beqChildren_sound : ∀ c1 c2 : List (String × CommandTree),
    CommandTree.beq.beqChildren c1 c2 = true → c1 = c2
  | [], [], _ => rfl
  | [], _ :: _, h => by simp [CommandTree.beq.beqChildren] at h
  | _ :: _, [], h => by simp [CommandTree.beq.beqChildren] at h
  | (k1, t1) :: r1, (k2, t2) :: r2, h => by
    simp only [CommandTree.beq.beqChildren, Bool.and_eq_true, decide_eq_true_eq] at h
    obtain ⟨⟨hk, ht⟩, hr⟩ := h
    rw [hk, CommandTree.beq_sound t1 t2 ht, beqChildren_sound r1 r2 hr]

end

/-! ## Claim theorems -/

/-- C9: `invoke` reads `full_arguments[0]` without a non-emptiness guard: on
the empty token sequence it raises an uncaught `IndexError` instead of any
user-visible reply, and `handle` re-raises it, so every dispatch path
presupposes the tokenizer returned at least one positional token. -/
theorem c9_invoke_empty_tokens_index_error
    (tree : List (String × CommandTree)) (env : DispatchEnv)
    (current_groups : List String) (explicit_arguments : List (String × Argument))
    (event_message_id : Nat) :
    invoke tree env current_groups [] explicit_arguments = .error .indexError ∧
    handle tree env current_groups event_message_id (.ok ([], explicit_arguments)) =
      .error .indexError :=
  ⟨rfl, rfl⟩

/-- C1 counterexample: on tokens `[WORD "hello"]` (empty leading FLAG run)
`invoke` returns `None` and `handle` sends no reply at all — there is no
"no command given" error reply; and on `[FLAG "g", WORD "hello"]`, where the
FLAG run ends on the group `g` at a non-FLAG token, the reply is the
incomplete-group subcommand listing, not a "no command given" error. -/
theorem c1_counterexample :
    invoke [("g", CommandTree.group [("sub", CommandTree.leaf "sub_command" [])])]
        ⟨fun _ => none, fun _ => [], fun _ _ => .ok none⟩ []
        [⟨ArgumentType.word, "hello"⟩] [] = .ok none ∧
    handle [("g", CommandTree.group [("sub", CommandTree.leaf "sub_command" [])])]
        ⟨fun _ => none, fun _ => [], fun _ _ => .ok none⟩ [] 7
        (.ok ([⟨ArgumentType.word, "hello"⟩], [])) = .ok [] ∧
    invoke [("g", CommandTree.group [("sub", CommandTree.leaf "sub_command" [])])]
        ⟨fun _ => none, fun _ => [], fun _ _ => .ok none⟩ []
        [⟨ArgumentType.flag, "g"⟩, ⟨ArgumentType.word, "hello"⟩] [] =
      .error (.commandError "Subcommands of !!/g hello are: sub") :=
  ⟨rfl, rfl, rfl⟩

/-- C1 (amended): if the first token is not a FLAG, `invoke` returns `None`
without raising and `handle` sends no reply — the invocation is silently
ignored and argument binding is never reached; if a non-empty leading FLAG
run stops on a group without reaching a leaf, dispatch fails with the
subcommand-listing reply for that group rather than a "no command given"
error. -/
theorem c1_amended :
    (∀ (tree : List (String × CommandTree)) (env : DispatchEnv)
       (current_groups : List String) (first : Argument) (rest : List Argument)
       (explicit_arguments : List (String × Argument)) (event_message_id : Nat),
       first.type ≠ ArgumentType.flag →
       invoke tree env current_groups (first :: rest) explicit_arguments = .ok none ∧
       handle tree env current_groups event_message_id
         (.ok (first :: rest, explicit_arguments)) = .ok []) ∧
    (∀ (tree node : List (String × CommandTree)) (env : DispatchEnv)
       (current_groups : List String) (first : Argument) (rest : List Argument)
       (explicit_arguments : List (String × Argument)),
       first.type = ArgumentType.flag →
       split_arguments tree (first :: rest) = .groupR node none →
       invoke tree env current_groups (first :: rest) explicit_arguments =
         .error (.commandError
           ("Subcommands of !!/" ++
            String.intercalate " " ((first :: rest).map Argument.value) ++
            " are: " ++ String.intercalate ", " (treeKeys node)))) := by
  constructor
  · intro tree env current_groups first rest explicit_arguments event_message_id h
    have h1 : invoke tree env current_groups (first :: rest) explicit_arguments = .ok none := by
      simp only [invoke]
      rw [if_pos h]
    exact ⟨h1, by simp only [handle, h1]⟩
  · intro tree node env current_groups first rest explicit_arguments hflag hsplit
    simp only [invoke]
    rw [if_neg (by simp [hflag]), hsplit]

/-- Witness for C1 (amended) at concrete inputs: a NUMBER first token is
silently ignored, and a FLAG run stopping on the group `g` produces its
subcommand listing. -/
theorem c1_amended_witness :
    invoke [("g", CommandTree.group [("s", CommandTree.leaf "s_command" [])])]
        ⟨fun _ => none, fun _ => [], fun _ _ => .ok none⟩ []
        [⟨ArgumentType.number, "1"⟩] [] = .ok none ∧
    invoke [("g", CommandTree.group [("s", CommandTree.leaf "s_command" [])])]
        ⟨fun _ => none, fun _ => [], fun _ _ => .ok none⟩ []
        [⟨ArgumentType.flag, "g"⟩, ⟨ArgumentType.string_, "x"⟩] [] =
      .error (.commandError "Subcommands of !!/g x are: s") := by
  constructor
  · exact (c1_amended.1 [("g", CommandTree.group [("s", CommandTree.leaf "s_command" [])])]
      ⟨fun _ => none, fun _ => [], fun _ _ => .ok none⟩ [] ⟨ArgumentType.number, "1"⟩ []
      [] 0 (by decide)).1
  · exact c1_amended.2 [("g", CommandTree.group [("s", CommandTree.leaf "s_command" [])])]
      [("s", CommandTree.leaf "s_command" [])]
      ⟨fun _ => none, fun _ => [], fun _ _ => .ok none⟩ []
      ⟨ArgumentType.flag, "g"⟩ [⟨ArgumentType.string_, "x"⟩] [] (by decide) rfl

/-- C5: the permission check fails iff the allowed-group set fetched for the
command is non-empty, the user lacks the admin group, and the user's groups
do not intersect it; on failure the message enumerates the allowed groups;
otherwise it returns silently — in particular a user holding the admin group
is never denied. -/
theorem c5_check_permissions_iff
    (permission_rows : String → List String) (command : String)
    (current_groups : List String) :
    (check_permissions permission_rows command current_groups ≠ .ok () ↔
      ((permission_rows command).dedup ≠ [] ∧ ADMIN_GROUP ∉ current_groups ∧
       current_groups.inter (permission_rows command).dedup = [])) ∧
    (((permission_rows command).dedup ≠ [] ∧ ADMIN_GROUP ∉ current_groups ∧
       current_groups.inter (permission_rows command).dedup = []) →
      check_permissions permission_rows command current_groups = .error (.commandError
        ("Only members of groups " ++
         String.intercalate " | "
           (((permission_rows command).dedup).map (fun name => "_" ++ name ++ "_")) ++
         " may run that command."))) ∧
    (ADMIN_GROUP ∈ current_groups →
      check_permissions permission_rows command current_groups = .ok ()) := by
  unfold check_permissions
  by_cases hc : ADMIN_GROUP ∉ current_groups ∧ (permission_rows command).dedup ≠ [] ∧
      current_groups.inter (permission_rows command).dedup = []
  · rw [if_pos hc]
    refine ⟨?_, ?_, ?_⟩
    · exact ⟨fun _ => ⟨hc.2.1, hc.1, hc.2.2⟩, fun _ h => Except.noConfusion h⟩
    · intro _; rfl
    · intro hadmin; exact absurd hadmin hc.1
  · rw [if_neg hc]
    refine ⟨?_, ?_, ?_⟩
    · exact ⟨fun h => absurd rfl h, fun h => absurd ⟨h.2.1, h.1, h.2.2⟩ hc⟩
    · intro h; exact absurd ⟨h.2.1, h.1, h.2.2⟩ hc
    · intro _; rfl

/-- Witness for C5 at concrete inputs: a user outside the allowed groups is
denied with the enumerating message; an admin passes even with a non-empty
allowed set. -/
theorem c5_witness :
    check_permissions (fun _ => ["mods", "devs"]) "run" ["users"] =
      .error (.commandError
        "Only members of groups _mods_ | _devs_ may run that command.") ∧
    check_permissions (fun _ => ["mods"]) "run" ["admin"] = .ok () := by
  constructor
  · exact (c5_check_permissions_iff (fun _ => ["mods", "devs"]) "run" ["users"]).2.1
      (by decide)
  · exact (c5_check_permissions_iff (fun _ => ["mods"]) "run" ["admin"]).2.2 (by decide)

/-- C6: an enum-of-flags parameter accepts exactly FLAG tokens naming one of
its literals — an unknown literal fails listing all valid literals joined by
"/", a non-FLAG token fails with the kind mismatch naming FLAG — and a
WORD/STRING/NUMBER parameter requires the token kind to equal the expected
kind exactly, a mismatch failing with a message naming both kinds. -/
theorem c6_create_argument_value (parameter : Parameter) (argument : Argument) :
    (∀ literals, parameter.kind = .enum literals →
      ((argument.type = ArgumentType.flag → argument.value ∈ literals →
         create_argument_value parameter argument (expected_type parameter) =
           .ok (.enumMember argument.value)) ∧
       (argument.type = ArgumentType.flag → argument.value ∉ literals →
         create_argument_value parameter argument (expected_type parameter) =
           .error (.commandError
             ("Invalid value supplied for argument `" ++ parameter.name ++
              "`; expected one of " ++ String.intercalate "/" literals ++ "."))) ∧
       (argument.type ≠ ArgumentType.flag →
         create_argument_value parameter argument (expected_type parameter) =
           .error (.commandError
             ("Incorrect type supplied for argument `" ++ parameter.name ++
              "`; expected **" ++ ArgumentType.flag.name ++ "** but got **" ++
              argument.type.name ++ "**"))))) ∧
    (∀ t, parameter.kind = .plain t → t ≠ ArgumentType.flag →
      ((argument.type = t →
         create_argument_value parameter argument (expected_type parameter) =
           .ok (.token argument.value)) ∧
       (argument.type ≠ t →
         create_argument_value parameter argument (expected_type parameter) =
           .error (.commandError
             ("Incorrect type supplied for argument `" ++ parameter.name ++
              "`; expected **" ++ t.name ++ "** but got **" ++
              argument.type.name ++ "**"))))) := by
  constructor
  · intro literals hk
    have hexp : expected_type parameter = ArgumentType.flag := by
      simp [expected_type, hk]
    refine ⟨?_, ?_, ?_⟩
    · intro hft hmem
      rw [hexp]
      simp [create_argument_value, hft, hk, hmem]
    · intro hft hmem
      rw [hexp]
      simp [create_argument_value, hft, hk, hmem]
    · intro hft
      rw [hexp]
      simp [create_argument_value, hft]
  · intro t hk ht
    have hexp : expected_type parameter = t := by simp [expected_type, hk]
    refine ⟨?_, ?_⟩
    · intro hat
      rw [hexp]
      simp [create_argument_value, hat, ht]
    · intro hat
      rw [hexp]
      simp [create_argument_value, hat, ht]

/-- Witness for C6 at concrete inputs: a valid enum literal, an invalid enum
literal, and a WORD token supplied for a NUMBER parameter. -/
theorem c6_witness :
    create_argument_value ⟨"mode", .enum ["fast", "slow"], false⟩
        ⟨ArgumentType.flag, "fast"⟩
        (expected_type ⟨"mode", .enum ["fast", "slow"], false⟩) =
      .ok (.enumMember "fast") ∧
    create_argument_value ⟨"mode", .enum ["fast", "slow"], false⟩
        ⟨ArgumentType.flag, "wrong"⟩
        (expected_type ⟨"mode", .enum ["fast", "slow"], false⟩) =
      .error (.commandError
        "Invalid value supplied for argument `mode`; expected one of fast/slow.") ∧
    create_argument_value ⟨"n", .plain .number, false⟩ ⟨ArgumentType.word, "x"⟩
        (expected_type ⟨"n", .plain .number, false⟩) =
      .error (.commandError
        "Incorrect type supplied for argument `n`; expected **NUMBER** but got **WORD**") := by
  refine ⟨?_, ?_, ?_⟩
  · exact ((c6_create_argument_value ⟨"mode", .enum ["fast", "slow"], false⟩
      ⟨ArgumentType.flag, "fast"⟩).1 ["fast", "slow"] rfl).1 rfl (by decide)
  · exact ((c6_create_argument_value ⟨"mode", .enum ["fast", "slow"], false⟩
      ⟨ArgumentType.flag, "wrong"⟩).1 ["fast", "slow"] rfl).2.1 rfl (by decide)
  · exact ((c6_create_argument_value ⟨"n", .plain .number, false⟩
      ⟨ArgumentType.word, "x"⟩).2 .number rfl (by decide)).2 (by decide)

/-- C10: a webhook payload naming a repository that is private or in the
configured ignored set is answered with HTTP 200 before `router.dispatch`
runs, so no event handler fires and no chat message is produced. -/
theorem c10_handle_request_skips (ignored_repositories : List String)
    (dispatchMessages : List String) (dispatchRaises : Bool) (repository : Repository)
    (h : repository.visibility = "private" ∨ repository.name ∈ ignored_repositories) :
    handle_request ignored_repositories dispatchMessages dispatchRaises
      (.valid (some repository)) = ⟨200, []⟩ := by
  simp only [handle_request]
  rw [if_pos h]

/-- Witness for C10 at concrete inputs: an ignored public repository and a
private repository, both with a dispatch that would send a message. -/
theorem c10_witness :
    handle_request ["spam"] ["msg"] true (.valid (some ⟨"spam", "public"⟩)) = ⟨200, []⟩ ∧
    handle_request [] ["msg"] false (.valid (some ⟨"x", "private"⟩)) = ⟨200, []⟩ :=
  ⟨c10_handle_request_skips ["spam"] ["msg"] true ⟨"spam", "public"⟩ (by decide),
   c10_handle_request_skips [] ["msg"] false ⟨"x", "private"⟩ (by decide)⟩

/-- C4: on a nonexistent-leaf locus the trick store is consulted for the
unmatched name before any error is reported: a hit short-circuits the whole
dispatch with the canned body no matter how deep the walk went; a miss at
the tree root yields the no-such-command error and a miss after a descent
into a group yields the no-such-subcommand error listing that group's
subcommands; on an incomplete-group locus the subcommand-listing error is
produced for every trick store, so the fallback never fires there. -/
theorem c4_trick_fallback (tree : List (String × CommandTree)) (env : DispatchEnv)
    (current_groups : List String) (first : Argument) (rest : List Argument)
    (explicit_arguments : List (String × Argument))
    (hflag : first.type = ArgumentType.flag) :
    (∀ node missing body,
       split_arguments tree (first :: rest) = .groupR node (some missing) →
       env.tricks missing = some body →
       invoke tree env current_groups (first :: rest) explicit_arguments =
         .ok (some (.text body))) ∧
    (env.tricks first.value = none → treeFind tree first.value = none →
       invoke tree env current_groups (first :: rest) explicit_arguments =
         .error (.commandError ("There is no command named !!/" ++ first.value ++ "."))) ∧
    (∀ sub node missing, treeFind tree first.value = some (.group sub) →
       split_arguments sub rest = .groupR node (some missing) →
       env.tricks missing = none →
       invoke tree env current_groups (first :: rest) explicit_arguments =
         .error (.commandError
           ("The group !!/" ++
            String.intercalate " " ((first :: rest).dropLast.map Argument.value) ++
            " has no subcommand named \"" ++ missing ++
            "\". Its subcommands are: " ++ String.intercalate ", " (treeKeys node)))) ∧
    (∀ node, split_arguments tree (first :: rest) = .groupR node none →
       invoke tree env current_groups (first :: rest) explicit_arguments =
         .error (.commandError
           ("Subcommands of !!/" ++
            String.intercalate " " ((first :: rest).map Argument.value) ++
            " are: " ++ String.intercalate ", " (treeKeys node)))) := by
  have hnotflag : ¬ (first.type ≠ ArgumentType.flag) := by simp [hflag]
  refine ⟨?_, ?_, ?_, ?_⟩
  · intro node missing body hsplit htrick
    simp [invoke, hnotflag, hsplit, htrick]
  · intro htrick htf
    have hsplit : split_arguments tree (first :: rest) = .groupR tree (some first.value) := by
      simp only [split_arguments]
      rw [if_neg hnotflag, htf]
    simp [invoke, hnotflag, hsplit, htrick, CommandTree.beq_self]
  · intro sub node missing htf hsub htrick
    have hsplit : split_arguments tree (first :: rest) = .groupR node (some missing) := by
      simp only [split_arguments]
      rw [if_neg hnotflag, htf]
      exact hsub
    have hlt : sizeOf node < sizeOf tree := by
      have h1 := split_arguments_sizeOf rest sub node (some missing) hsub
      have h2 := treeFind_sizeOf tree first.value _ htf
      simp only [CommandTree.group.sizeOf_spec] at h2
      omega
    have hne : CommandTree.beq (.group node) (.group tree) = false := by
      cases hbeq : CommandTree.beq (.group node) (.group tree) with
      | false => rfl
      | true =>
        have heq := CommandTree.beq_sound _ _ hbeq
        injection heq with heq
        rw [heq] at hlt
        exact absurd hlt (lt_irrefl _)
    simp [invoke, hnotflag, hsplit, htrick, hne]
  · intro node hsplit
    simp [invoke, hnotflag, hsplit]

/-- Witness for C4, on the tree `{"g": {"sub": leaf}}` with a trick store
knowing only `hi`: a trick hit at depth 1, a root miss, a nested miss, and
an incomplete group. -/
theorem c4_witness :
    invoke [("g", CommandTree.group [("sub", CommandTree.leaf "sub_command" [])])]
        ⟨fun n => if n = "hi" then some "canned" else none, fun _ => [], fun _ _ => .ok none⟩
        [] [⟨ArgumentType.flag, "g"⟩, ⟨ArgumentType.flag, "hi"⟩] [] =
      .ok (some (.text "canned")) ∧
    invoke [("g", CommandTree.group [("sub", CommandTree.leaf "sub_command" [])])]
        ⟨fun n => if n = "hi" then some "canned" else none, fun _ => [], fun _ _ => .ok none⟩
        [] [⟨ArgumentType.flag, "nope"⟩] [] =
      .error (.commandError "There is no command named !!/nope.") ∧
    invoke [("g", CommandTree.group [("sub", CommandTree.leaf "sub_command" [])])]
        ⟨fun n => if n = "hi" then some "canned" else none, fun _ => [], fun _ _ => .ok none⟩
        [] [⟨ArgumentType.flag, "g"⟩, ⟨ArgumentType.flag, "bad"⟩] [] =
      .error (.commandError
        "The group !!/g has no subcommand named \"bad\". Its subcommands are: sub") ∧
    invoke [("g", CommandTree.group [("sub", CommandTree.leaf "sub_command" [])])]
        ⟨fun n => if n = "hi" then some "canned" else none, fun _ => [], fun _ _ => .ok none⟩
        [] [⟨ArgumentType.flag, "g"⟩] [] =
      .error (.commandError "Subcommands of !!/g are: sub") := by
  refine ⟨?_, ?_, ?_, ?_⟩
  · exact (c4_trick_fallback _ _ _ _ _ _ rfl).1 [("sub", CommandTree.leaf "sub_command" [])]
      "hi" "canned" rfl rfl
  · exact (c4_trick_fallback _ _ _ _ _ _ rfl).2.1 (by decide) rfl
  · exact (c4_trick_fallback _ _ _ _ _ _ rfl).2.2.1 [("sub", CommandTree.leaf "sub_command" [])]
      [("sub", CommandTree.leaf "sub_command" [])] "bad" rfl rfl (by decide)
  · exact (c4_trick_fallback _ _ _ _ _ _ rfl).2.2.2 [("sub", CommandTree.leaf "sub_command" [])] rfl

/-- C7: a keyword token fails with the illegal-argument error when its name
is ignored/reserved, with the multiple-values error when the name is already
bound (in particular positionally), and with the unknown-argument error when
the name matches no declared parameter; consequently a successful binding
never maps an ignored/injected name unless the dispatch context itself
supplies it. -/
theorem c7_keyword_resolution (parameters : List Parameter) (argument_name : String)
    (argument : Argument) (rest : List (String × Argument)) (acc : Bindings) :
    (argument_name ∈ IGNORED_PARAMETERS →
      set_keyword_arguments parameters ((argument_name, argument) :: rest) acc =
        .error (.commandError ("Illegal argument `" ++ argument_name ++ "` supplied."))) ∧
    (argument_name ∉ IGNORED_PARAMETERS → (dictLookup acc argument_name).isSome →
      set_keyword_arguments parameters ((argument_name, argument) :: rest) acc =
        .error (.commandError
          ("Multiple values supplied for argument `" ++ argument_name ++ "`."))) ∧
    (argument_name ∉ IGNORED_PARAMETERS → dictLookup acc argument_name = none →
      paramLookup parameters argument_name = none →
      set_keyword_arguments parameters ((argument_name, argument) :: rest) acc =
        .error (.commandError ("Unknown argument `" ++ argument_name ++ "` supplied."))) ∧
    (∀ (args : List Argument) (explicit : List (String × Argument))
       (context : List (String × Value)) (vals : Bindings),
       prepare_arguments parameters args explicit context = .ok vals →
       ∀ n ∈ IGNORED_PARAMETERS, n ∉ context.map Prod.fst → dictLookup vals n = none) := by
  refine ⟨?_, ?_, ?_, ?_⟩
  · intro hig
    simp [set_keyword_arguments, hig]
  · intro hig hdup
    simp [set_keyword_arguments, hig, hdup]
  · intro hig hdup hp
    simp [set_keyword_arguments, hig, hdup, hp]
  · intro args explicit context vals hprep n hn hctx
    unfold prepare_arguments at hprep
    split at hprep
    next e hp1 => exact Except.noConfusion hprep
    next acc1 hp1 =>
      split at hprep
      next e hp2 => exact Except.noConfusion hprep
      next acc2 hp2 =>
        split at hprep
        next e hp3 => exact Except.noConfusion hprep
        next u hp3 =>
          injection hprep with hprep
          rw [← hprep]
          rw [set_context_values_not_key parameters context acc2 n hctx]
          rw [set_keyword_arguments_ignored parameters explicit acc1 acc2 hp2 n hn]
          rw [set_positional_arguments_ignored parameters args [] acc1 hp1 n hn]
          rfl

/-- Witness for C7 at concrete inputs: an ignored keyword name, a name
already bound positionally, an undeclared name, and a successful binding
whose result leaves the ignored name `event` unbound. -/
theorem c7_witness :
    set_keyword_arguments [⟨"x", .plain .word, false⟩]
        [("event", ⟨ArgumentType.word, "v"⟩)] [] =
      .error (.commandError "Illegal argument `event` supplied.") ∧
    set_keyword_arguments [⟨"x", .plain .word, false⟩]
        [("x", ⟨ArgumentType.word, "v"⟩)] [("x", Value.token "a")] =
      .error (.commandError "Multiple values supplied for argument `x`.") ∧
    set_keyword_arguments [⟨"x", .plain .word, false⟩]
        [("y", ⟨ArgumentType.word, "v"⟩)] [] =
      .error (.commandError "Unknown argument `y` supplied.") ∧
    dictLookup [("x", Value.token "a")] "event" = none := by
  refine ⟨?_, ?_, ?_, ?_⟩
  · exact (c7_keyword_resolution [⟨"x", .plain .word, false⟩] "event"
      ⟨ArgumentType.word, "v"⟩ [] []).1 (by decide)
  · exact (c7_keyword_resolution [⟨"x", .plain .word, false⟩] "x"
      ⟨ArgumentType.word, "v"⟩ [] [("x", Value.token "a")]).2.1 (by decide) (by decide)
  · exact (c7_keyword_resolution [⟨"x", .plain .word, false⟩] "y"
      ⟨ArgumentType.word, "v"⟩ [] []).2.2.1 (by decide) rfl rfl
  · exact (c7_keyword_resolution [⟨"x", .plain .word, false⟩] "x"
      ⟨ArgumentType.word, "v"⟩ [] []).2.2.2 [⟨ArgumentType.word, "a"⟩] [] []
      [("x", Value.token "a")] rfl "event" (by decide) (by decide)

/-- C3 counterexample: with declared parameters `(event, x)` where `event`
is ignored and a single WORD token, the source's `zip_longest` pairing lets
the ignored parameter `event` swallow the token, so binding ends empty and
`prepare_arguments` fails with `x` missing — whereas pairing that skips
ignored parameters without consuming a token (the claim as stated) would
bind `x` to the token. -/
theorem c3_counterexample :
    set_positional_arguments
        [⟨"event", .plain .word, false⟩, ⟨"x", .plain .word, false⟩]
        [⟨ArgumentType.word, "a"⟩] [] = .ok [] ∧
    set_positional_arguments_spec
        [⟨"event", .plain .word, false⟩, ⟨"x", .plain .word, false⟩]
        [⟨ArgumentType.word, "a"⟩] [] = .ok [("x", Value.token "a")] ∧
    prepare_arguments
        [⟨"event", .plain .word, false⟩, ⟨"x", .plain .word, false⟩]
        [⟨ArgumentType.word, "a"⟩] [] [] =
      .error (.commandError
        "Argument `x` not provided, expected a value of type **WORD**.") :=
  ⟨rfl, rfl, rfl⟩

/-- C3 (amended): positional binding pairs declared parameters and tokens
index-wise: an ignored parameter consumes (and discards) the token at its
own index instead of passing it to the next parameter; pairing stops when
the tokens run out; and tokens left over beyond the declared parameters fail
with the superfluous-arguments error identifying the first excess token's
value (whenever the paired prefix itself type-checks). -/
theorem c3_amended :
    (∀ (parameter : Parameter) (parameters : List Parameter) (argument : Argument)
       (arguments : List Argument) (acc : Bindings),
       parameter.name ∈ IGNORED_PARAMETERS →
       set_positional_arguments (parameter :: parameters) (argument :: arguments) acc =
         set_positional_arguments parameters arguments acc) ∧
    (∀ (parameters : List Parameter) (acc : Bindings),
       set_positional_arguments parameters [] acc = .ok acc) ∧
    (∀ (parameters : List Parameter) (paired : List Argument) (a : Argument)
       (rest : List Argument) (acc : Bindings),
       paired.length = parameters.length →
       (∀ pr ∈ parameters.zip paired, pr.1.name ∉ IGNORED_PARAMETERS →
         ∃ v, create_argument_value pr.1 pr.2 (expected_type pr.1) = .ok v) →
       set_positional_arguments parameters (paired ++ a :: rest) acc =
         .error (.commandError
           ("Superfluous arguments supplied starting at `" ++ a.value ++ "`."))) := by
  refine ⟨?_, ?_, ?_⟩
  · intro parameter parameters argument arguments acc hig
    simp [set_positional_arguments, hig]
  · intro parameters acc
    cases parameters <;> rfl
  · exact set_positional_arguments_superfluous

/-- Witness for C3 (amended) at concrete inputs: an ignored head parameter
consumes the first token, and a single-parameter leaf given two tokens fails
naming the second token. -/
theorem c3_amended_witness :
    set_positional_arguments
        [⟨"current_user", .plain .word, false⟩, ⟨"y", .plain .word, false⟩]
        [⟨ArgumentType.word, "b"⟩, ⟨ArgumentType.word, "c"⟩] [] =
      set_positional_arguments [⟨"y", .plain .word, false⟩] [⟨ArgumentType.word, "c"⟩] [] ∧
    set_positional_arguments [⟨"y", .plain .word, false⟩]
        [⟨ArgumentType.word, "c"⟩, ⟨ArgumentType.word, "d"⟩] [] =
      .error (.commandError "Superfluous arguments supplied starting at `d`.") := by
  constructor
  · exact c3_amended.1 ⟨"current_user", .plain .word, false⟩ [⟨"y", .plain .word, false⟩]
      ⟨ArgumentType.word, "b"⟩ [⟨ArgumentType.word, "c"⟩] [] (by decide)
  · apply c3_amended.2.2 [⟨"y", .plain .word, false⟩] [⟨ArgumentType.word, "c"⟩]
      ⟨ArgumentType.word, "d"⟩ [] [] rfl
    intro pr hpr _
    simp only [List.zip_cons_cons, List.zip_nil_left, List.mem_singleton] at hpr
    subst hpr
    exact ⟨Value.token "c", rfl⟩

/-- C8 counterexample: for a leaf declaring the ignored parameter `event`
before its two required parameters `x` and `y` (the canonical handler
shape), supplying k−1 = 1 of the k = 2 required positional tokens fails
with the missing-argument error naming `x` — the first required parameter
left unbound after `event` swallowed the token — and not the last required
parameter `y`, as the claim states. -/
theorem c8_counterexample :
    prepare_arguments
        [⟨"event", .plain .word, false⟩, ⟨"x", .plain .word, false⟩,
         ⟨"y", .plain .word, false⟩]
        [⟨ArgumentType.word, "v"⟩] [] [] =
      .error (.commandError
        "Argument `x` not provided, expected a value of type **WORD**.") ∧
    prepare_arguments
        [⟨"event", .plain .word, false⟩, ⟨"x", .plain .word, false⟩,
         ⟨"y", .plain .word, false⟩]
        [⟨ArgumentType.word, "v"⟩] [] [] ≠
      .error (.commandError
        "Argument `y` not provided, expected a value of type **WORD**.") := by
  refine ⟨rfl, fun h => ?_⟩
  have h1 : (Except.error (Failure.commandError
        "Argument `x` not provided, expected a value of type **WORD**.") :
        Except Failure Bindings) =
      Except.error (Failure.commandError
        "Argument `y` not provided, expected a value of type **WORD**.") := h
  injection h1 with h2
  exact absurd h2 (by decide)

/-- C8 (amended): after positional and keyword binding, an unbound parameter
with a default is left unbound (no default is ever filled into the mapping);
the missing-argument pass succeeds iff every non-ignored defaultless
parameter is bound, so on success every required parameter is present in
the result; when it fails, the error names the first non-ignored defaultless
unbound parameter in declaration order and its expected kind.  Supplying
k−1 of k required positional tokens therefore fails naming the last
required parameter only when no ignored parameter stands among the paired
leading parameters (and required parameters precede optional ones); a run
of ignored parameters declared first instead swallows that many leading
tokens outright, after which the failure names the first required parameter
left unbound. -/
theorem c8_missing_arguments :
    (∀ (parameters : List Parameter) (args : List Argument)
       (explicit : List (String × Argument)) (context : List (String × Value))
       (vals : Bindings),
       prepare_arguments parameters args explicit context = .ok vals →
       ∀ p ∈ parameters, p.name ∉ IGNORED_PARAMETERS → ¬ p.hasDefault →
         (dictLookup vals p.name).isSome) ∧
    (∀ (acc : Bindings) (parameters : List Parameter),
       find_missing_arguments acc parameters = .ok () ↔
         ∀ p ∈ parameters, p.name ∉ IGNORED_PARAMETERS → ¬ p.hasDefault →
           (dictLookup acc p.name).isSome) ∧
    (∀ (acc : Bindings) (pre post : List Parameter) (p : Parameter),
       (∀ q ∈ pre, q.name ∈ IGNORED_PARAMETERS ∨ q.hasDefault ∨
          (dictLookup acc q.name).isSome) →
       p.name ∉ IGNORED_PARAMETERS → ¬ p.hasDefault → dictLookup acc p.name = none →
       find_missing_arguments acc (pre ++ p :: post) = .error (.commandError
         ("Argument `" ++ p.name ++ "` not provided, expected a value of type **" ++
          (expected_type p).name ++ "**."))) ∧
    (∀ (rs opts : List Parameter) (lastP : Parameter) (paired : List Argument)
       (context : List (String × Value)),
       (∀ q ∈ rs, q.name ∉ IGNORED_PARAMETERS ∧ ¬ q.hasDefault) →
       lastP.name ∉ IGNORED_PARAMETERS → ¬ lastP.hasDefault →
       lastP.name ∉ rs.map Parameter.name →
       paired.length = rs.length →
       (∀ pr ∈ rs.zip paired,
         ∃ v, create_argument_value pr.1 pr.2 (expected_type pr.1) = .ok v) →
       prepare_arguments (rs ++ lastP :: opts) paired [] context = .error (.commandError
         ("Argument `" ++ lastP.name ++ "` not provided, expected a value of type **" ++
          (expected_type lastP).name ++ "**."))) ∧
    (∀ (igs rest : List Parameter) (args : List Argument) (acc : Bindings),
       (∀ q ∈ igs, q.name ∈ IGNORED_PARAMETERS) →
       args.length ≤ igs.length →
       set_positional_arguments (igs ++ rest) args acc = .ok acc) := by
  refine ⟨?_, find_missing_arguments_ok_iff, ?_, ?_, set_positional_arguments_swallow⟩
  case refine_2 =>
    intro acc pre post p hpre hig hd hnone
    exact find_missing_arguments_first acc p post pre hpre hig hd hnone
  · intro parameters args explicit context vals hprep p hp hig hd
    unfold prepare_arguments at hprep
    split at hprep
    next e hp1 => exact Except.noConfusion hprep
    next acc1 hp1 =>
      split at hprep
      next e hp2 => exact Except.noConfusion hprep
      next acc2 hp2 =>
        split at hprep
        next e hp3 => exact Except.noConfusion hprep
        next u hp3 =>
          injection hprep with hprep
          rw [← hprep]
          apply set_context_values_isSome
          cases u
          exact (find_missing_arguments_ok_iff acc2 parameters).mp hp3 p hp hig hd
  · intro rs opts lastP paired context hreq higl hdl hnotin hlen hok
    have hlen2 : paired.length ≤ (rs ++ lastP :: opts).length := by
      simp [hlen]
    have htake : (rs ++ lastP :: opts).take paired.length = rs := by
      rw [hlen]
      exact List.take_left rs (lastP :: opts)
    have hzip : (rs ++ lastP :: opts).zip paired = rs.zip paired := by
      conv_lhs => rw [← List.append_nil paired]
      rw [List.zip_append hlen.symm]
      simp
    obtain ⟨out, hout, hiff⟩ := set_positional_arguments_domain paired
      (rs ++ lastP :: opts) [] hlen2
      (fun q hq => (hreq q (htake ▸ hq)).1)
      (fun pr hpr => hok pr (hzip ▸ hpr))
    have hlast : dictLookup out lastP.name = none := by
      rw [← Option.not_isSome_iff_eq_none]
      intro hs
      rcases (hiff lastP.name).mp hs with hmem | hacc
      · rw [htake] at hmem
        exact hnotin hmem
      · exact absurd hacc (by simp [dictLookup])
    have hpre : ∀ q ∈ rs, q.name ∈ IGNORED_PARAMETERS ∨ q.hasDefault ∨
        (dictLookup out q.name).isSome := by
      intro q hq
      refine Or.inr (Or.inr ?_)
      apply (hiff q.name).mpr
      left
      rw [htake]
      exact List.mem_map_of_mem Parameter.name hq
    have hfm := find_missing_arguments_first out lastP opts rs hpre higl hdl hlast
    have hkw : set_keyword_arguments (rs ++ lastP :: opts) [] out = .ok out := rfl
    simp only [prepare_arguments, hout, hkw, hfm]

/-- Witness for C8 (amended) at concrete inputs: a defaultless NUMBER
parameter with no tokens, a two-required-parameter leaf with no ignored
parameters given one token (the error names the second parameter), a
successful binding containing its required parameter, and a leading ignored
parameter swallowing the only token. -/
theorem c8_witness :
    find_missing_arguments [] [⟨"n", .plain .number, false⟩] = .error (.commandError
      "Argument `n` not provided, expected a value of type **NUMBER**.") ∧
    prepare_arguments [⟨"a", .plain .word, false⟩, ⟨"b", .plain .word, false⟩]
        [⟨ArgumentType.word, "v"⟩] [] [] = .error (.commandError
      "Argument `b` not provided, expected a value of type **WORD**.") ∧
    (dictLookup [("x", Value.token "hi")] "x").isSome ∧
    set_positional_arguments
        [⟨"event", .plain .word, false⟩, ⟨"x", .plain .word, false⟩,
         ⟨"y", .plain .word, false⟩]
        [⟨ArgumentType.word, "v"⟩] [] = .ok [] := by
  refine ⟨?_, ?_, ?_, ?_⟩
  · exact c8_missing_arguments.2.2.1 [] [] [] ⟨"n", .plain .number, false⟩
      (by simp) (by decide) (by decide) rfl
  · apply c8_missing_arguments.2.2.2.1 [⟨"a", .plain .word, false⟩] []
      ⟨"b", .plain .word, false⟩ [⟨ArgumentType.word, "v"⟩] []
      (by intro q hq; simp only [List.mem_singleton] at hq; subst hq; exact ⟨by decide, by decide⟩)
      (by decide) (by decide) (by decide) rfl
    intro pr hpr
    simp only [List.zip_cons_cons, List.zip_nil_left, List.mem_singleton] at hpr
    subst hpr
    exact ⟨Value.token "v", rfl⟩
  · exact c8_missing_arguments.1 [⟨"x", .plain .word, false⟩] [⟨ArgumentType.word, "hi"⟩]
      [] [] [("x", Value.token "hi")] rfl ⟨"x", .plain .word, false⟩ (by simp)
      (by decide) (by decide)
  · exact c8_missing_arguments.2.2.2.2 [⟨"event", .plain .word, false⟩]
      [⟨"x", .plain .word, false⟩, ⟨"y", .plain .word, false⟩]
      [⟨ArgumentType.word, "v"⟩] []
      (by intro q hq; simp only [List.mem_singleton] at hq; subst hq; decide)
      (by decide)

/-- C2 counterexample: a handler that raises an unclassified exception is
not caught at the orchestrator boundary — `handle` re-raises it, sending no
reply, instead of logging and answering generically. -/
theorem c2_counterexample :
    handle [("c", CommandTree.leaf "c_command" [])]
        ⟨fun _ => none, fun _ => [], fun _ _ => .error (.unexpected "boom")⟩ [] 3
        (.ok ([⟨ArgumentType.flag, "c"⟩], [])) = .error (.unexpected "boom") :=
  rfl

/-- C2 (amended): `handle` catches exactly the classified failures — a
tokenizer `ParseError` and every `CommandError` raised during dispatch each
become exactly one chat reply — but a failure that is not a `CommandError`
(such as an unclassified exception raised by a handler, or the `IndexError`
of C9) is not caught: `handle` re-raises it with no reply and no logging. -/
theorem c2_amended (tree : List (String × CommandTree)) (env : DispatchEnv)
    (current_groups : List String) (event_message_id : Nat) :
    (∀ message, handle tree env current_groups event_message_id (.error message) =
       .ok [⟨"Parse error: " ++ message, event_message_id⟩]) ∧
    (∀ args explicit message,
       invoke tree env current_groups args explicit = .error (.commandError message) →
       handle tree env current_groups event_message_id (.ok (args, explicit)) =
         .ok [⟨message, event_message_id⟩]) ∧
    (∀ args explicit e,
       invoke tree env current_groups args explicit = .error e →
       (∀ message, e ≠ .commandError message) →
       handle tree env current_groups event_message_id (.ok (args, explicit)) =
         .error e) := by
  refine ⟨fun message => rfl, ?_, ?_⟩
  · intro args explicit message hinv
    simp [handle, hinv]
  · intro args explicit e hinv hne
    cases e with
    | commandError m => exact absurd rfl (hne m)
    | assertionError => simp [handle, hinv]
    | indexError => simp [handle, hinv]
    | unexpected m => simp [handle, hinv]

/-- Witness for C2 (amended) at concrete inputs: a parse error becomes one
reply, a `CommandError` becomes one reply, and an unclassified handler
exception propagates out of `handle`. -/
theorem c2_amended_witness :
    handle [] ⟨fun _ => none, fun _ => [], fun _ _ => .ok none⟩ [] 2 (.error "oops") =
      .ok [⟨"Parse error: oops", 2⟩] ∧
    handle [] ⟨fun _ => none, fun _ => [], fun _ _ => .ok none⟩ [] 2
        (.ok ([⟨ArgumentType.flag, "z"⟩], [])) =
      .ok [⟨"There is no command named !!/z.", 2⟩] ∧
    handle [("c", CommandTree.leaf "cmd_command" [])]
        ⟨fun _ => none, fun _ => [], fun _ _ => .error (.unexpected "crash")⟩ [] 2
        (.ok ([⟨ArgumentType.flag, "c"⟩], [])) = .error (.unexpected "crash") := by
  refine ⟨?_, ?_, ?_⟩
  · exact (c2_amended [] ⟨fun _ => none, fun _ => [], fun _ _ => .ok none⟩ [] 2).1 "oops"
  · exact (c2_amended [] ⟨fun _ => none, fun _ => [], fun _ _ => .ok none⟩ [] 2).2.1
      [⟨ArgumentType.flag, "z"⟩] [] "There is no command named !!/z." rfl
  · exact (c2_amended [("c", CommandTree.leaf "cmd_command" [])]
      ⟨fun _ => none, fun _ => [], fun _ _ => .error (.unexpected "crash")⟩ [] 2).2.2
      [⟨ArgumentType.flag, "c"⟩] [] (.unexpected "crash") rfl
      (fun m h => Failure.noConfusion h)

end Vyxalbot
